import Mathlib

/-!
Shallow embedding of `latex_history_anim.py`.

The script is a linear pipeline: list the commits touching a tex file,
then for each commit check it out, build a PDF, rasterize pages with
pdftoppm, compose the page images side by side and save the strip;
finally restore the original git reference and encode the saved strips
into an animation.

Pure computations (`compose_side_by_side`, the page-collection loop of
`pdf_to_png_pages`) are embedded directly.  Interactions with the
environment (file existence, tool availability, success of external
processes) are parameters of an `Env` record; the `main` driver is
embedded as `runMain`, a function from the environment to an outcome
record (exit code, saved frames, final checked-out reference).
Python's float scaling `int(h * (max_height/h))` is modelled with exact
arithmetic, i.e. natural floor division.  Commit identifiers and git
references are opaque and modelled as naturals.
-/

set_option autoImplicit false

namespace LatexHistoryAnim

/-- A raster image, reduced to its pixel dimensions. -/
structure Img where
  w : Nat
  h : Nat
deriving DecidableEq, Repr

/-- Python slicing `xs[:k]` for an `int` bound `k`: a nonnegative bound
keeps the first `k` elements, a negative bound drops the last `-k`. -/
def pyTake {α : Type} (k : Int) (xs : List α) : List α :=
  if 0 ≤ k then xs.take k.toNat else xs.take (xs.length - (-k).toNat)

/-- The per-image scaling step of `compose_side_by_side` (source lines
156-163): if `h > max_height` the image is resized to
`(int(w*scale), int(h*scale))` with `scale = max_height/h`; in exact
arithmetic this is floor division.  Otherwise the image is unchanged. -/
def scaleImage (max_height : Nat) (im : Img) : Img :=
  if max_height < im.h then
    { w := im.w * max_height / im.h, h := im.h * max_height / im.h }
  else
    im

/-- `compose_side_by_side(images, max_pages, max_height, gap)`:
truncates to `images[:max_pages]`, raises `ValueError` (here `none`)
when the truncation is empty, otherwise scales each image and returns
the composed canvas whose width is the sum of the scaled widths plus
`gap` between consecutive images and whose height is the maximum scaled
height. -/
def compose_side_by_side (images : List Img) (max_pages : Int)
    (max_height : Nat) (gap : Nat) : Option Img :=
  if (pyTake max_pages images).isEmpty then
    none
  else
    some { w := (((pyTake max_pages images).map (scaleImage max_height)).map Img.w).sum
             + gap * (((pyTake max_pages images).map (scaleImage max_height)).length - 1),
           h := (((pyTake max_pages images).map (scaleImage max_height)).map Img.h).foldl
             Nat.max 0 }

/-- The page-collection loop of `pdf_to_png_pages` (source lines
127-134): starting at page index `i`, keep collecting consecutive page
indices as long as the page file exists, for at most `fuel` iterations;
stop at the first missing index. -/
def collectFrom (pageExists : Nat → Bool) : Nat → Nat → List Nat
  | 0, _ => []
  | fuel + 1, i =>
    if pageExists i then i :: collectFrom pageExists fuel (i + 1) else []

/-- `pdf_to_png_pages`: the produced page list is the pages
`1, 2, ...` collected up to the first missing one, capped at
`max_pages` (the Python loop `for i in range(1, max_pages + 1)` runs
`max max_pages 0` times). -/
def pdf_to_png_pages (pageExists : Nat → Bool) (max_pages : Int) : List Nat :=
  collectFrom pageExists max_pages.toNat 1

/-- The environment a run interacts with: which preconditions hold,
the commit list, and the per-commit outcome of each external stage. -/
structure Env where
  /-- `Path(args.repo).resolve().exists()` -/
  repo_exists : Bool
  /-- `shutil.which("git")` finds git -/
  git_ok : Bool
  /-- `shutil.which("pdftoppm")` finds pdftoppm -/
  pdftoppm_ok : Bool
  /-- the target tex file exists in the repo -/
  tex_exists : Bool
  /-- the reference recorded by `rev-parse` before the loop -/
  original_ref : Nat
  /-- commits touching the tex file, oldest to newest -/
  commits : List Nat
  /-- `git checkout <commit>` succeeds -/
  checkout_ok : Nat → Bool
  /-- `build_latex` returns a PDF (rather than raising) -/
  build_ok : Nat → Bool
  /-- the `pdftoppm` invocation inside `pdf_to_png_pages` succeeds -/
  raster_ok : Nat → Bool
  /-- which rasterized page files exist for this commit -/
  pageExists : Nat → Nat → Bool
  /-- dimensions of a commit's rasterized page -/
  pageImg : Nat → Nat → Img
  /-- no external error (e.g. reading a page file) inside
  `compose_side_by_side` for this commit -/
  compose_ok : Nat → Bool
  /-- `composed_img.save(out_png)` succeeds -/
  save_ok : Nat → Bool
  /-- `imageio.mimsave` succeeds -/
  encode_ok : Bool
  /-- the final `git checkout <original_ref>` succeeds -/
  restore_ok : Bool

/-- Result of the body of the per-commit loop for one commit.
`Except.error head` means an exception escaped the loop body (the body
catches build, rasterization and composition failures, but checkout and
save failures propagate); `Except.ok (head, saved)` means the loop
moves on to the next commit, with `saved = true` iff a composed strip
was appended to `composed_pngs`.  In both cases the first component is
the repository's checked-out reference afterwards. -/
def processCommit (env : Env) (max_pages : Int) (c : Nat) (head : Nat) :
    Except Nat (Nat × Bool) :=
  if env.checkout_ok c = false then
    Except.error head
  else if env.build_ok c = false then
    Except.ok (c, false)
  else if env.raster_ok c = false then
    Except.ok (c, false)
  else if ((pdf_to_png_pages (env.pageExists c) max_pages).map (env.pageImg c)).isEmpty then
    Except.ok (c, false)
  else if env.compose_ok c = false then
    Except.ok (c, false)
  else
    match compose_side_by_side
        ((pdf_to_png_pages (env.pageExists c) max_pages).map (env.pageImg c))
        max_pages 1200 8 with
    | none => Except.ok (c, false)
    | some _ => if env.save_ok c then Except.ok (c, true) else Except.error c

/-- State after the per-commit loop: the commits whose strip was saved
(in order), the final checked-out reference, and whether an uncaught
exception aborted the loop. -/
structure LoopOut where
  frames : List Nat
  head : Nat
  aborted : Bool
deriving DecidableEq, Repr

/-- The per-commit loop of `main` (source lines 229-277), folded over
the commit list. -/
def runLoop (env : Env) (max_pages : Int) :
    List Nat → Nat → List Nat → LoopOut
  | [], head, acc => { frames := acc, head := head, aborted := false }
  | c :: rest, head, acc =>
    match processCommit env max_pages c head with
    | Except.error h => { frames := acc, head := h, aborted := true }
    | Except.ok (h, saved) =>
      runLoop env max_pages rest h (acc ++ if saved then [c] else [])

/-- Observable outcome of a run of `main`: the process exit code (an
unhandled exception exits with code 1), the saved strips in order, the
final checked-out reference, whether the post-loop restore was reached,
whether the loop aborted on an uncaught exception, and whether any
checkout was attempted. -/
structure RunOutcome where
  exit_code : Nat
  frames : List Nat
  head : Nat
  restore_attempted : Bool
  aborted_mid_loop : Bool
  any_checkout : Bool
deriving DecidableEq, Repr

/-- The part of `main` after the per-commit loop (source lines
279-304), given the loop's outcome `lo`.  If the loop aborted on an
uncaught exception the process dies with exit code 1 before the restore
step.  Otherwise the original reference is restored (best effort);
then: no saved frames exits 2, an encoding failure exits 1, and a
successful encode exits 0. -/
def finishRun (env : Env) (lo : LoopOut) : RunOutcome :=
  if lo.aborted then
    { exit_code := 1, frames := lo.frames, head := lo.head,
      restore_attempted := false, aborted_mid_loop := true, any_checkout := true }
  else if lo.frames.isEmpty then
    { exit_code := 2, frames := lo.frames,
      head := if env.restore_ok then env.original_ref else lo.head,
      restore_attempted := true, aborted_mid_loop := false, any_checkout := true }
  else if env.encode_ok then
    { exit_code := 0, frames := lo.frames,
      head := if env.restore_ok then env.original_ref else lo.head,
      restore_attempted := true, aborted_mid_loop := false, any_checkout := true }
  else
    { exit_code := 1, frames := lo.frames,
      head := if env.restore_ok then env.original_ref else lo.head,
      restore_attempted := true, aborted_mid_loop := false, any_checkout := true }

/-- The `main` driver (source lines 178-308).  Precondition checks in
source order: missing repo path exits 2; a missing tool makes
`ensure_tools_exist` raise an uncaught `RuntimeError` (process exit 1);
a missing tex file exits 2; an empty commit list exits 2.  Then the
per-commit loop runs, followed by the restore and assembly steps of
`finishRun`. -/
def runMain (env : Env) (max_pages : Int) : RunOutcome :=
  if env.repo_exists = false then
    { exit_code := 2, frames := [], head := env.original_ref,
      restore_attempted := false, aborted_mid_loop := false, any_checkout := false }
  else if (env.git_ok && env.pdftoppm_ok) = false then
    { exit_code := 1, frames := [], head := env.original_ref,
      restore_attempted := false, aborted_mid_loop := false, any_checkout := false }
  else if env.tex_exists = false then
    { exit_code := 2, frames := [], head := env.original_ref,
      restore_attempted := false, aborted_mid_loop := false, any_checkout := false }
  else if env.commits.isEmpty then
    { exit_code := 2, frames := [], head := env.original_ref,
      restore_attempted := false, aborted_mid_loop := false, any_checkout := false }
  else
    finishRun env (runLoop env max_pages env.commits env.original_ref [])

/-! ### Helper lemmas about the pure pipeline functions -/

theorem pyTake_nil {α : Type} (k : Int) : pyTake k ([] : List α) = [] := by
  unfold pyTake
  split <;> simp

theorem pyTake_of_length_le {α : Type} (k : Int) (xs : List α)
    (hk : (xs.length : Int) ≤ k) (h0 : 0 ≤ k) : pyTake k xs = xs := by
  unfold pyTake
  rw [if_pos h0]
  exact List.take_of_length_le (by omega)

theorem foldl_max_le (l : List Nat) :
    ∀ a b : Nat, a ≤ b → (∀ x ∈ l, x ≤ b) → l.foldl Nat.max a ≤ b := by
  induction l with
  | nil => intro a b ha _; simpa using ha
  | cons x xs ih =>
    intro a b ha hl
    simp only [List.foldl_cons]
    exact ih (Nat.max a x) b (Nat.max_le.mpr ⟨ha, hl x (by simp)⟩)
      (fun y hy => hl y (by simp [hy]))

theorem le_foldl_max (l : List Nat) : ∀ a : Nat, a ≤ l.foldl Nat.max a := by
  induction l with
  | nil => intro a; exact Nat.le_refl a
  | cons x xs ih =>
    intro a
    simp only [List.foldl_cons]
    exact Nat.le_trans (Nat.le_max_left a x) (ih (Nat.max a x))

theorem mem_le_foldl_max (l : List Nat) :
    ∀ a : Nat, ∀ x ∈ l, x ≤ l.foldl Nat.max a := by
  induction l with
  | nil => intro a x hx; exact absurd hx (List.not_mem_nil x)
  | cons y ys ih =>
    intro a x hx
    simp only [List.foldl_cons]
    rcases List.mem_cons.mp hx with h | h
    · subst h
      exact Nat.le_trans (Nat.le_max_right a x) (le_foldl_max ys (Nat.max a x))
    · exact ih (Nat.max a y) x h

theorem foldl_max_mem (l : List Nat) :
    ∀ a : Nat, l.foldl Nat.max a = a ∨ l.foldl Nat.max a ∈ l := by
  induction l with
  | nil => intro a; left; rfl
  | cons x xs ih =>
    intro a
    simp only [List.foldl_cons]
    rcases ih (Nat.max a x) with h | h
    · rcases Nat.le_total a x with hax | hxa
      · right
        have hmax : Nat.max a x = x := Nat.max_eq_right hax
        rw [h, hmax]
        exact List.mem_cons_self x xs
      · left
        rw [h]
        exact Nat.max_eq_left hxa
    · right
      exact List.mem_cons_of_mem x h

theorem scaleImage_of_le (mh : Nat) (im : Img) (h : im.h ≤ mh) :
    scaleImage mh im = im := by
  unfold scaleImage
  rw [if_neg (by omega)]

theorem scaleImage_h_of_gt (mh : Nat) (im : Img) (h : mh < im.h) :
    (scaleImage mh im).h = mh := by
  unfold scaleImage
  rw [if_pos h]
  exact Nat.mul_div_cancel_left mh (by omega)

theorem scaleImage_w_of_gt (mh : Nat) (im : Img) (h : mh < im.h) :
    (scaleImage mh im).w = im.w * mh / im.h := by
  unfold scaleImage
  rw [if_pos h]

theorem scaleImage_h_le (mh : Nat) (im : Img) : (scaleImage mh im).h ≤ mh := by
  unfold scaleImage
  split
  · next h =>
    show im.h * mh / im.h ≤ mh
    rw [Nat.mul_div_cancel_left mh (by omega)]
  · next h =>
    show im.h ≤ mh
    omega

theorem collectFrom_spec (pe : Nat → Bool) (fuel : Nat) :
    ∀ i : Nat, ∃ m, collectFrom pe fuel i = List.range' i m ∧ m ≤ fuel ∧
      (∀ j, i ≤ j → j < i + m → pe j = true) ∧
      (m < fuel → pe (i + m) = false) := by
  induction fuel with
  | zero =>
    intro i
    exact ⟨0, rfl, Nat.le_refl 0, fun j h1 h2 => absurd h2 (by omega),
           fun h => absurd h (by omega)⟩
  | succ fuel ih =>
    intro i
    by_cases hp : pe i = true
    · obtain ⟨m, hEq, hLe, hAll, hStop⟩ := ih (i + 1)
      refine ⟨m + 1, ?_, by omega, ?_, ?_⟩
      · show collectFrom pe (fuel + 1) i = _
        simp only [collectFrom, hp, if_true]
        rw [hEq, List.range'_succ]
      · intro j h1 h2
        rcases Nat.eq_or_lt_of_le h1 with h | hlt
        · rw [← h]; exact hp
        · exact hAll j (by omega) (by omega)
      · intro hm
        have hx := hStop (by omega)
        rw [show i + (m + 1) = i + 1 + m by omega]
        exact hx
    · have hp' : pe i = false := by simpa using hp
      refine ⟨0, ?_, by omega, fun j h1 h2 => absurd h2 (by omega), fun _ => ?_⟩
      · show collectFrom pe (fuel + 1) i = _
        simp [collectFrom, hp']
      · simpa using hp'

/-! ### Helper lemmas about the driver -/

theorem processCommit_ok_of (env : Env) (mp : Int) (c head : Nat)
    (hco : env.checkout_ok c = true) (hsv : env.save_ok c = true) :
    ∃ saved, processCommit env mp c head = Except.ok (c, saved) := by
  unfold processCommit
  rw [if_neg (by simp [hco])]
  by_cases hb : env.build_ok c = false
  · rw [if_pos hb]; exact ⟨false, rfl⟩
  · rw [if_neg hb]
    by_cases hr : env.raster_ok c = false
    · rw [if_pos hr]; exact ⟨false, rfl⟩
    · rw [if_neg hr]
      by_cases hpg :
          ((pdf_to_png_pages (env.pageExists c) mp).map (env.pageImg c)).isEmpty = true
      · rw [if_pos hpg]; exact ⟨false, rfl⟩
      · rw [if_neg hpg]
        by_cases hcm : env.compose_ok c = false
        · rw [if_pos hcm]; exact ⟨false, rfl⟩
        · rw [if_neg hcm]
          cases hcs : compose_side_by_side
              ((pdf_to_png_pages (env.pageExists c) mp).map (env.pageImg c))
              mp 1200 8 with
          | none => exact ⟨false, rfl⟩
          | some img => exact ⟨true, by simp [hsv]⟩

theorem processCommit_caught_failure (env : Env) (mp : Int) (c head : Nat)
    (hco : env.checkout_ok c = true)
    (hfail : env.build_ok c = false ∨ env.raster_ok c = false ∨
      env.compose_ok c = false) :
    processCommit env mp c head = Except.ok (c, false) := by
  unfold processCommit
  rw [if_neg (by simp [hco])]
  by_cases hb : env.build_ok c = false
  · rw [if_pos hb]
  · rw [if_neg hb]
    by_cases hr : env.raster_ok c = false
    · rw [if_pos hr]
    · rw [if_neg hr]
      by_cases hpg :
          ((pdf_to_png_pages (env.pageExists c) mp).map (env.pageImg c)).isEmpty = true
      · rw [if_pos hpg]
      · rw [if_neg hpg]
        have hcm : env.compose_ok c = false := by tauto
        rw [if_pos hcm]

theorem runLoop_frames_sublist (env : Env) (mp : Int) (cs : List Nat) :
    ∀ (head : Nat) (acc : List Nat),
      ∃ t, (runLoop env mp cs head acc).frames = acc ++ t ∧ t.Sublist cs := by
  induction cs with
  | nil =>
    intro head acc
    exact ⟨[], by simp [runLoop], List.nil_sublist []⟩
  | cons c rest ih =>
    intro head acc
    cases hpc : processCommit env mp c head with
    | error h =>
      exact ⟨[], by simp [runLoop, hpc], List.nil_sublist _⟩
    | ok pr =>
      obtain ⟨h, saved⟩ := pr
      obtain ⟨t, ht, hs⟩ := ih h (acc ++ if saved then [c] else [])
      refine ⟨(if saved then [c] else []) ++ t, ?_, ?_⟩
      · have hstep : runLoop env mp (c :: rest) head acc
            = runLoop env mp rest h (acc ++ if saved then [c] else []) := by
          simp only [runLoop, hpc]
        rw [hstep, ht, List.append_assoc]
      · cases saved
        · simpa using List.Sublist.cons c hs
        · simpa using List.Sublist.cons₂ c hs

theorem runLoop_no_abort (env : Env) (mp : Int) (cs : List Nat) :
    ∀ (head : Nat) (acc : List Nat),
      (∀ c ∈ cs, env.checkout_ok c = true ∧ env.save_ok c = true) →
      (runLoop env mp cs head acc).aborted = false := by
  induction cs with
  | nil => intro head acc _; simp [runLoop]
  | cons c rest ih =>
    intro head acc hsafe
    obtain ⟨hco, hsv⟩ := hsafe c (List.mem_cons_self c rest)
    obtain ⟨saved, hpc⟩ := processCommit_ok_of env mp c head hco hsv
    have hstep : runLoop env mp (c :: rest) head acc
        = runLoop env mp rest c (acc ++ if saved then [c] else []) := by
      simp only [runLoop, hpc]
    rw [hstep]
    exact ih c _ (fun x hx => hsafe x (List.mem_cons_of_mem c hx))

theorem processCommit_zero_cap (env : Env) (c head : Nat) :
    processCommit env 0 c head = Except.error head ∨
    processCommit env 0 c head = Except.ok (c, false) := by
  unfold processCommit
  by_cases hco : env.checkout_ok c = false
  · left; rw [if_pos hco]
  · right
    rw [if_neg hco]
    by_cases hb : env.build_ok c = false
    · rw [if_pos hb]
    · rw [if_neg hb]
      by_cases hr : env.raster_ok c = false
      · rw [if_pos hr]
      · rw [if_neg hr]
        rw [if_pos (show ((pdf_to_png_pages (env.pageExists c) 0).map
          (env.pageImg c)).isEmpty = true from rfl)]

theorem runLoop_zero_cap (env : Env) (cs : List Nat) :
    ∀ (head : Nat) (acc : List Nat), (runLoop env 0 cs head acc).frames = acc := by
  induction cs with
  | nil => intro head acc; simp [runLoop]
  | cons c rest ih =>
    intro head acc
    rcases processCommit_zero_cap env c head with hpc | hpc
    · simp [runLoop, hpc]
    · have hstep : runLoop env 0 (c :: rest) head acc
          = runLoop env 0 rest c (acc ++ if false then [c] else []) := by
        simp only [runLoop, hpc]
      rw [hstep]
      simpa using ih c acc

theorem finishRun_frames (env : Env) (lo : LoopOut) :
    (finishRun env lo).frames = lo.frames := by
  unfold finishRun
  split
  · rfl
  · split
    · rfl
    · split
      · rfl
      · rfl

theorem finishRun_restore (env : Env) (lo : LoopOut) (ha : lo.aborted = false)
    (hr : env.restore_ok = true) :
    (finishRun env lo).head = env.original_ref ∧
    (finishRun env lo).restore_attempted = true := by
  unfold finishRun
  rw [if_neg (by simp [ha])]
  split
  · exact ⟨by simp [hr], rfl⟩
  · split
    · exact ⟨by simp [hr], rfl⟩
    · exact ⟨by simp [hr], rfl⟩

theorem finishRun_aborted (env : Env) (lo : LoopOut) :
    (finishRun env lo).aborted_mid_loop = lo.aborted := by
  unfold finishRun
  split
  · next h => simpa using h.symm
  · next h =>
    have h' : lo.aborted = false := by simpa using h
    split
    · simpa using h'.symm
    · split
      · simpa using h'.symm
      · simpa using h'.symm

theorem finishRun_exit_of_not_aborted (env : Env) (lo : LoopOut)
    (ha : lo.aborted = false) :
    (lo.frames = [] → (finishRun env lo).exit_code = 2) ∧
    (lo.frames ≠ [] → env.encode_ok = false → (finishRun env lo).exit_code = 1) ∧
    (lo.frames ≠ [] → env.encode_ok = true → (finishRun env lo).exit_code = 0) := by
  unfold finishRun
  rw [if_neg (by simp [ha])]
  refine ⟨?_, ?_, ?_⟩
  · intro hf
    rw [if_pos (by simp [hf])]
  · intro hf he
    rw [if_neg (by simpa [List.isEmpty_iff] using hf), if_neg (by simp [he])]
  · intro hf he
    rw [if_neg (by simpa [List.isEmpty_iff] using hf), if_pos he]

theorem runMain_frames_cases (env : Env) (mp : Int) :
    (runMain env mp).frames = [] ∨
    (runMain env mp).frames
      = (runLoop env mp env.commits env.original_ref []).frames := by
  unfold runMain
  split
  · left; rfl
  · split
    · left; rfl
    · split
      · left; rfl
      · split
        · left; rfl
        · right
          exact finishRun_frames env _

/-! ### Claim theorems -/

/-- Claim C4: page collection returns the raster pages in order starting
at page 1 and stops at the first missing page index even if
later-numbered pages exist: the result is exactly the contiguous range
`1..m` for some `m` bounded by the cap, every page in it exists, and if
the cap was not reached then page `m+1` is missing; in particular with
pages 1, 2 and 4 present and cap 10 the result is exactly `[1, 2]`. -/
theorem claim_C4_page_collection :
    (∀ (pe : Nat → Bool) (max_pages : Int),
      ∃ m, pdf_to_png_pages pe max_pages = List.range' 1 m ∧
        m ≤ max_pages.toNat ∧
        (∀ j, 1 ≤ j → j ≤ m → pe j = true) ∧
        (m < max_pages.toNat → pe (m + 1) = false)) ∧
    pdf_to_png_pages (fun i => i == 1 || i == 2 || i == 4) 10 = [1, 2] := by
  constructor
  · intro pe mp
    obtain ⟨m, hEq, hLe, hAll, hStop⟩ := collectFrom_spec pe mp.toNat 1
    refine ⟨m, hEq, hLe, fun j h1 h2 => hAll j h1 (by omega), fun hm => ?_⟩
    have hx := hStop hm
    rwa [show 1 + m = m + 1 by omega] at hx
  · rfl

/-- Claim C4 witness: the general part instantiated on the concrete
page set {1, 2, 4} with cap 10. -/
theorem claim_C4_witness :
    ∃ m, pdf_to_png_pages (fun i => i == 1 || i == 2 || i == 4) 10 = List.range' 1 m ∧
      m ≤ (10 : Int).toNat ∧
      (∀ j, 1 ≤ j → j ≤ m → (fun i => i == 1 || i == 2 || i == 4) j = true) ∧
      (m < (10 : Int).toNat → (fun i => i == 1 || i == 2 || i == 4) (m + 1) = false) :=
  claim_C4_page_collection.1 (fun i => i == 1 || i == 2 || i == 4) 10

/-- Claim C5: for a non-empty list of at most `max_pages` images the
composed strip exists, its width is the sum of the individually
height-scaled widths plus `gap` for each of the `count - 1` joints, and
its height is the maximum scaled height (an upper bound attained by
some input image). -/
theorem claim_C5_strip_dimensions (images : List Img) (max_pages : Int)
    (max_height gap : Nat) (hne : images ≠ [])
    (hlen : (images.length : Int) ≤ max_pages) :
    ∃ out, compose_side_by_side images max_pages max_height gap = some out ∧
      out.w = (images.map (fun im => (scaleImage max_height im).w)).sum
        + gap * (images.length - 1) ∧
      (∀ im ∈ images, (scaleImage max_height im).h ≤ out.h) ∧
      (∃ im ∈ images, (scaleImage max_height im).h = out.h) := by
  have hpos : 0 < images.length := List.length_pos.mpr hne
  have h0 : (0 : Int) ≤ max_pages := by omega
  have htake : pyTake max_pages images = images := pyTake_of_length_le _ _ hlen h0
  unfold compose_side_by_side
  rw [htake, if_neg (by simpa [List.isEmpty_iff] using hne)]
  refine ⟨_, rfl, ?_, ?_, ?_⟩
  · show ((images.map (scaleImage max_height)).map Img.w).sum
        + gap * ((images.map (scaleImage max_height)).length - 1) = _
    rw [List.map_map, List.length_map]
    rfl
  · intro im hmem
    show (scaleImage max_height im).h
      ≤ ((images.map (scaleImage max_height)).map Img.h).foldl Nat.max 0
    refine mem_le_foldl_max _ 0 _ ?_
    rw [List.map_map]
    exact List.mem_map_of_mem _ hmem
  · show ∃ im ∈ images, (scaleImage max_height im).h
      = ((images.map (scaleImage max_height)).map Img.h).foldl Nat.max 0
    rcases foldl_max_mem ((images.map (scaleImage max_height)).map Img.h) 0
        with hz | hmem
    · cases images with
      | nil => exact absurd rfl hne
      | cons i0 rest =>
        refine ⟨i0, List.mem_cons_self i0 rest, ?_⟩
        have hle : (scaleImage max_height i0).h
            ≤ (((i0 :: rest).map (scaleImage max_height)).map Img.h).foldl Nat.max 0 := by
          refine mem_le_foldl_max _ 0 _ ?_
          rw [List.map_map]
          exact List.mem_map_of_mem _ (List.mem_cons_self i0 rest)
        omega
    · obtain ⟨y, hy, hyEq⟩ := List.mem_map.mp hmem
      obtain ⟨im, him, himEq⟩ := List.mem_map.mp hy
      refine ⟨im, him, ?_⟩
      rw [himEq, hyEq]

/-- Claim C5 witness: two images, one taller than the target height,
composed with cap 10, target height 1200 and gap 8: width is
`50 + 8 + 50` and the height bound is attained. -/
theorem claim_C5_witness :
    ∃ out, compose_side_by_side [⟨100, 2400⟩, ⟨50, 600⟩] 10 1200 8 = some out ∧
      out.w = ([⟨100, 2400⟩, ⟨50, 600⟩].map
        (fun im => (scaleImage 1200 im).w)).sum + 8 * ([(⟨100, 2400⟩ : Img), ⟨50, 600⟩].length - 1) ∧
      (∀ im ∈ [(⟨100, 2400⟩ : Img), ⟨50, 600⟩], (scaleImage 1200 im).h ≤ out.h) ∧
      (∃ im ∈ [(⟨100, 2400⟩ : Img), ⟨50, 600⟩], (scaleImage 1200 im).h = out.h) :=
  claim_C5_strip_dimensions [⟨100, 2400⟩, ⟨50, 600⟩] 10 1200 8 (by decide) (by decide)

/-- Claim C6: scaling is downscale-only — an image no taller than the
target height is returned unchanged, and a taller image gets height
exactly the target and width scaled by the same ratio (floor of
`w * max_height / h`). -/
theorem claim_C6_downscale_only (max_height : Nat) (im : Img) :
    (im.h ≤ max_height → scaleImage max_height im = im) ∧
    (max_height < im.h → (scaleImage max_height im).h = max_height ∧
      (scaleImage max_height im).w = im.w * max_height / im.h) :=
  ⟨fun h => scaleImage_of_le _ _ h,
   fun h => ⟨scaleImage_h_of_gt _ _ h, scaleImage_w_of_gt _ _ h⟩⟩

/-- Claim C6 witness: a 50x600 image is untouched at target height
1200; a 100x2400 image becomes 50x1200. -/
theorem claim_C6_witness :
    scaleImage 1200 ⟨50, 600⟩ = ⟨50, 600⟩ ∧
    (scaleImage 1200 ⟨100, 2400⟩).h = 1200 ∧
    (scaleImage 1200 ⟨100, 2400⟩).w = 50 :=
  ⟨(claim_C6_downscale_only 1200 ⟨50, 600⟩).1 (by decide),
   ((claim_C6_downscale_only 1200 ⟨100, 2400⟩).2 (by decide)).1,
   by rw [((claim_C6_downscale_only 1200 ⟨100, 2400⟩).2 (by decide)).2]; rfl⟩

/-- Claim C8: composing an empty list of images fails (the `ValueError`
branch, modelled as `none`), for every cap, target height and gap. -/
theorem claim_C8_empty_input_fails (max_pages : Int) (max_height gap : Nat) :
    compose_side_by_side [] max_pages max_height gap = none := by
  unfold compose_side_by_side
  rw [pyTake_nil]
  simp

/-- Claim C10: whenever composition produces a strip, its height never
exceeds the `max_height` parameter — every image is kept at its
original height (already within the bound) or scaled down to exactly
the bound, so the maximum scaled height is bounded. -/
theorem claim_C10_height_bounded (images : List Img) (max_pages : Int)
    (max_height gap : Nat) (out : Img)
    (h : compose_side_by_side images max_pages max_height gap = some out) :
    out.h ≤ max_height := by
  unfold compose_side_by_side at h
  by_cases he : (pyTake max_pages images).isEmpty = true
  · rw [if_pos he] at h
    exact absurd h (by simp)
  · rw [if_neg he] at h
    have hout := Option.some.inj h
    rw [← hout]
    show (((pyTake max_pages images).map (scaleImage max_height)).map Img.h).foldl
      Nat.max 0 ≤ max_height
    refine foldl_max_le _ 0 max_height (Nat.zero_le _) ?_
    intro x hx
    rw [List.map_map] at hx
    obtain ⟨im, _, himEq⟩ := List.mem_map.mp hx
    rw [← himEq]
    exact scaleImage_h_le max_height im

/-- Claim C10 witness: composing a 100x2400 and a 50x600 image at
target height 1200 gives a strip of height 1200 ≤ 1200. -/
theorem claim_C10_witness : (⟨108, 1200⟩ : Img).h ≤ 1200 :=
  claim_C10_height_bounded [⟨100, 2400⟩, ⟨50, 600⟩] 10 1200 8 ⟨108, 1200⟩ (by decide)

/-- Claim C9 counterexample: with cap `-1` and two images, Python slice
semantics drop only the last image, so composition succeeds with the
first image instead of failing with the no-images error. -/
theorem claim_C9_counterexample :
    compose_side_by_side [⟨5, 5⟩, ⟨7, 9⟩] (-1) 1200 10 = some ⟨5, 5⟩ ∧
    compose_side_by_side [⟨5, 5⟩, ⟨7, 9⟩] (-1) 1200 10 ≠ none := by
  constructor
  · decide
  · decide

/-- Claim C9 (amended): with `max_pages = 0` the composer always fails
with the no-images error (the input is truncated to its first zero
elements before the emptiness check), and with a page cap of 0 no
commit ever yields a frame; a negative cap, however, follows Python
slice semantics (dropping the last `|max_pages|` images) and can
succeed, as the counterexample shows. -/
theorem claim_C9_amended_zero_cap :
    (∀ (images : List Img) (max_height gap : Nat),
      compose_side_by_side images 0 max_height gap = none) ∧
    (∀ env : Env, (runMain env 0).frames = []) := by
  constructor
  · intro images mh g
    have h : pyTake (0 : Int) images = [] := by simp [pyTake]
    unfold compose_side_by_side
    rw [h]
    simp
  · intro env
    rcases runMain_frames_cases env 0 with h | h
    · exact h
    · rw [h]
      exact runLoop_zero_cap env env.commits env.original_ref []

/-- A fully healthy environment: one commit, every precondition holds
and every stage succeeds.  Concrete test environments below are
variations of it. -/
def envBase : Env where
  repo_exists := true
  git_ok := true
  pdftoppm_ok := true
  tex_exists := true
  original_ref := 100
  commits := [0]
  checkout_ok := fun _ => true
  build_ok := fun _ => true
  raster_ok := fun _ => true
  pageExists := fun _ i => i == 1
  pageImg := fun _ _ => ⟨100, 200⟩
  compose_ok := fun _ => true
  save_ok := fun _ => true
  encode_ok := true
  restore_ok := true

/-- Two commits, only the first commit's `git checkout` fails. -/
def envCheckoutFail : Env :=
  { envBase with commits := [0, 1], checkout_ok := fun c => c != 0 }

/-- Two commits, every stage succeeds. -/
def envTwoCommits : Env := { envBase with commits := [0, 1] }

/-- Two commits, only the first commit's build fails. -/
def envBuildFailFirst : Env :=
  { envBase with commits := [0, 1], build_ok := fun c => c != 0 }

/-- Three commits, only the middle commit's build fails. -/
def envBuildFailMiddle : Env :=
  { envBase with commits := [0, 1, 2], build_ok := fun c => c != 1 }

/-- Claim C1 counterexample: two commits where only the first commit's
`git checkout` fails.  The uncaught `CalledProcessError` aborts the
whole run (exit before restore, no frame even for the healthy second
commit), while the same environment with checkouts succeeding produces
both frames — refuting that any single commit's stage failure merely
skips that commit. -/
theorem claim_C1_counterexample :
    (runMain envCheckoutFail 10).aborted_mid_loop = true ∧
    (runMain envCheckoutFail 10).frames = [] ∧
    (runMain envCheckoutFail 10).restore_attempted = false ∧
    (runMain envTwoCommits 10).frames = [0, 1] := by
  refine ⟨by decide, by decide, by decide, by decide⟩

/-- Claim C1 (amended): a failure of the build, rasterization or
composition stage is caught: the loop body returns a skip outcome for
that commit, and the driver proceeds to the next commit with no frame
added; when every commit's checkout and save succeed, no stage failure
ever aborts the run mid-loop.  (A checkout or save failure, by
contrast, aborts the whole run, per the counterexample.) -/
theorem claim_C1_amended :
    (∀ (env : Env) (mp : Int) (c head : Nat),
      env.checkout_ok c = true →
      (env.build_ok c = false ∨ env.raster_ok c = false ∨ env.compose_ok c = false) →
      processCommit env mp c head = Except.ok (c, false)) ∧
    (∀ (env : Env) (mp : Int) (c : Nat) (rest : List Nat) (head : Nat) (acc : List Nat),
      processCommit env mp c head = Except.ok (c, false) →
      runLoop env mp (c :: rest) head acc = runLoop env mp rest c acc) ∧
    (∀ (env : Env) (mp : Int),
      (∀ c ∈ env.commits, env.checkout_ok c = true ∧ env.save_ok c = true) →
      (runMain env mp).aborted_mid_loop = false) := by
  refine ⟨?_, ?_, ?_⟩
  · intro env mp c head hco hfail
    exact processCommit_caught_failure env mp c head hco hfail
  · intro env mp c rest head acc hpc
    simp only [runLoop, hpc]
    simp
  · intro env mp hsafe
    unfold runMain
    split
    · rfl
    · split
      · rfl
      · split
        · rfl
        · split
          · rfl
          · rw [finishRun_aborted]
            exact runLoop_no_abort env mp env.commits env.original_ref [] hsafe

/-- Claim C1 witness: a commit whose build fails is skipped, the loop
proceeds to the next commit, and the run (with both checkouts and
saves succeeding) does not abort. -/
theorem claim_C1_witness :
    processCommit envBuildFailFirst 10 0 100 = Except.ok (0, false) ∧
    runLoop envBuildFailFirst 10 [0, 1] 100 []
      = runLoop envBuildFailFirst 10 [1] 0 [] ∧
    (runMain envBuildFailFirst 10).aborted_mid_loop = false :=
  ⟨claim_C1_amended.1 envBuildFailFirst 10 0 100 (by decide) (Or.inl (by decide)),
   claim_C1_amended.2.1 envBuildFailFirst 10 0 [1] 100 [] rfl,
   claim_C1_amended.2.2 envBuildFailFirst 10 (by decide)⟩

/-- Claim C2: whenever the preconditions hold and the loop completes
(all checkouts and saves succeed; build, rasterization or composition
may still have failed for any number of commits) and the final restore
checkout succeeds, the restore step is reached and the final
checked-out reference equals the one recorded before the run. -/
theorem claim_C2_restores_original_ref (env : Env) (mp : Int)
    (h1 : env.repo_exists = true) (h2 : env.git_ok = true)
    (h3 : env.pdftoppm_ok = true) (h4 : env.tex_exists = true)
    (h5 : env.commits ≠ [])
    (h6 : ∀ c ∈ env.commits, env.checkout_ok c = true ∧ env.save_ok c = true)
    (h7 : env.restore_ok = true) :
    (runMain env mp).restore_attempted = true ∧
    (runMain env mp).head = env.original_ref := by
  unfold runMain
  rw [if_neg (by simp [h1]), if_neg (by simp [h2, h3]), if_neg (by simp [h4]),
      if_neg (by simpa [List.isEmpty_iff] using h5)]
  have ha := runLoop_no_abort env mp env.commits env.original_ref [] h6
  obtain ⟨hh, hr⟩ := finishRun_restore env _ ha h7
  exact ⟨hr, hh⟩

/-- Claim C2 witness: a three-commit run in which the middle commit's
build fails (so it is skipped) still ends with the original reference
checked out. -/
theorem claim_C2_witness :
    (runMain envBuildFailMiddle 10).restore_attempted = true ∧
    (runMain envBuildFailMiddle 10).head = 100 :=
  claim_C2_restores_original_ref envBuildFailMiddle 10 (by decide) (by decide)
    (by decide) (by decide) (by decide) (by decide) (by decide)

/-- Claim C3 counterexample: repository present but `git` missing from
PATH — `ensure_tools_exist` raises an uncaught `RuntimeError`, so the
process exits with code 1, not 2 as the claim states (it does abort
before any checkout). -/
theorem claim_C3_counterexample :
    (runMain { envBase with git_ok := false } 10).exit_code = 1 ∧
    (runMain { envBase with git_ok := false } 10).exit_code ≠ 2 ∧
    (runMain { envBase with git_ok := false } 10).any_checkout = false := by
  refine ⟨by decide, by decide, by decide⟩

/-- Claim C3 (amended): a missing repository path, missing target
document, empty commit list, or zero frames produced all exit with code
2; missing required tools also aborts before any checkout but exits
with code 1 (an unhandled exception), not 2; the four pre-loop failures
abort before any checkout; and when the loop completes, an encoding
failure exits 1 while a successful encode exits 0. -/
theorem claim_C3_amended (env : Env) (mp : Int) :
    (env.repo_exists = false →
      (runMain env mp).exit_code = 2 ∧ (runMain env mp).any_checkout = false) ∧
    (env.repo_exists = true → (env.git_ok && env.pdftoppm_ok) = false →
      (runMain env mp).exit_code = 1 ∧ (runMain env mp).any_checkout = false) ∧
    (env.repo_exists = true → (env.git_ok && env.pdftoppm_ok) = true →
      env.tex_exists = false →
      (runMain env mp).exit_code = 2 ∧ (runMain env mp).any_checkout = false) ∧
    (env.repo_exists = true → (env.git_ok && env.pdftoppm_ok) = true →
      env.tex_exists = true → env.commits = [] →
      (runMain env mp).exit_code = 2 ∧ (runMain env mp).any_checkout = false) ∧
    (env.repo_exists = true → (env.git_ok && env.pdftoppm_ok) = true →
      env.tex_exists = true → env.commits ≠ [] →
      (runLoop env mp env.commits env.original_ref []).aborted = false →
      ((runLoop env mp env.commits env.original_ref []).frames = [] →
        (runMain env mp).exit_code = 2) ∧
      ((runLoop env mp env.commits env.original_ref []).frames ≠ [] →
        env.encode_ok = false → (runMain env mp).exit_code = 1) ∧
      ((runLoop env mp env.commits env.original_ref []).frames ≠ [] →
        env.encode_ok = true → (runMain env mp).exit_code = 0)) := by
  refine ⟨?_, ?_, ?_, ?_, ?_⟩
  · intro h1
    unfold runMain
    rw [if_pos h1]
    exact ⟨rfl, rfl⟩
  · intro h1 h2
    unfold runMain
    rw [if_neg (by simp [h1]), if_pos h2]
    exact ⟨rfl, rfl⟩
  · intro h1 h2 h3
    unfold runMain
    rw [if_neg (by simp [h1]), if_neg (by simp [h2]), if_pos h3]
    exact ⟨rfl, rfl⟩
  · intro h1 h2 h3 h4
    unfold runMain
    rw [if_neg (by simp [h1]), if_neg (by simp [h2]), if_neg (by simp [h3]),
        if_pos (by simp [h4])]
    exact ⟨rfl, rfl⟩
  · intro h1 h2 h3 h4 ha
    unfold runMain
    rw [if_neg (by simp [h1]), if_neg (by simp [h2]), if_neg (by simp [h3]),
        if_neg (by simpa [List.isEmpty_iff] using h4)]
    exact finishRun_exit_of_not_aborted env _ ha

/-- Claim C3 witness: the amended exit-code taxonomy instantiated on
concrete environments — missing repo exits 2, missing git exits 1,
missing tex exits 2, no commits exits 2, a healthy run exits 0, and a
run whose only commit fails to build exits 2 (zero frames). -/
theorem claim_C3_witness :
    ((runMain { envBase with repo_exists := false } 10).exit_code = 2 ∧
      (runMain { envBase with repo_exists := false } 10).any_checkout = false) ∧
    ((runMain { envBase with pdftoppm_ok := false } 10).exit_code = 1 ∧
      (runMain { envBase with pdftoppm_ok := false } 10).any_checkout = false) ∧
    ((runMain { envBase with tex_exists := false } 10).exit_code = 2 ∧
      (runMain { envBase with tex_exists := false } 10).any_checkout = false) ∧
    ((runMain { envBase with commits := [] } 10).exit_code = 2 ∧
      (runMain { envBase with commits := [] } 10).any_checkout = false) ∧
    (runMain envBase 10).exit_code = 0 ∧
    (runMain { envBase with build_ok := fun _ => false } 10).exit_code = 2 :=
  ⟨(claim_C3_amended _ 10).1 (by decide),
   (claim_C3_amended _ 10).2.1 (by decide) (by decide),
   (claim_C3_amended _ 10).2.2.1 (by decide) (by decide) (by decide),
   (claim_C3_amended _ 10).2.2.2.1 (by decide) (by decide) (by decide) (by decide),
   ((claim_C3_amended envBase 10).2.2.2.2 (by decide) (by decide) (by decide)
     (by decide) (by decide)).2.2 (by decide) (by decide),
   ((claim_C3_amended { envBase with build_ok := fun _ => false } 10).2.2.2.2
     (by decide) (by decide) (by decide) (by decide) (by decide)).1 (by decide)⟩

/-- Claim C7: for every environment the saved frames are, in order, a
subsequence of the chronologically ordered commit list, and hence no
more numerous than the commits — regardless of which commits were
skipped. -/
theorem claim_C7_frames_subsequence (env : Env) (mp : Int) :
    (runMain env mp).frames.Sublist env.commits ∧
    (runMain env mp).frames.length ≤ env.commits.length := by
  have hs : (runMain env mp).frames.Sublist env.commits := by
    rcases runMain_frames_cases env mp with h | h
    · rw [h]
      exact List.nil_sublist _
    · rw [h]
      obtain ⟨t, ht, hsub⟩ := runLoop_frames_sublist env mp env.commits env.original_ref []
      rw [ht]
      simpa using hsub
  exact ⟨hs, hs.length_le⟩

end LatexHistoryAnim
